import Mathlib

/-!
# Verification of the distributed_learning_simulator round-coordination core

A shallow embedding, in Lean 4, of the parts of the repository that the
specification's claims are about:

* `src/topology/cs_endpoint.py` — the server endpoint's `broadcast`;
* `src/worker/fed_avg_worker.py` and `src/worker/fed_dropout_avg_worker.py` —
  the worker round state machine (skip handling, termination, outgoing-message
  construction);
* `src/server/multiround_shapley_value_server.py` — Shapley best-subset
  aggregation and the subset-metric assertion;
* `src/training.py` — `train` / `get_training_result` orchestration.

Python dictionaries are embedded as association lists, tensors as `List Int`
(the numeric content is opaque to the coordination logic), and the random
Bernoulli mask of the dropout worker as an oracle function `Nat → Nat → Bool`
(layer index, element index ↦ keep?).  External collaborators that live
outside `src/` (the base `AggregationWorker`, `FedAVGServer`, `ModelCache`,
the process pool) enter as explicit parameters or as definitions modelled
from the spec, each marked as such in its doc comment.
-/

set_option autoImplicit false

namespace DLSim

/-! ## Topology: `ServerEndpoint.broadcast` (src/topology/cs_endpoint.py)

```python
def broadcast(self, data, worker_ids=None):
    all_worker_ids = set(range(self.worker_num))
    if worker_ids is None:
        worker_ids = all_worker_ids
    else:
        worker_ids = set(worker_ids).intersection(all_worker_ids)
    for worker_id in worker_ids:
        self.send(data, worker_id)
```

A Python `set` of small naturals is embedded as the sub-list of
`List.range worker_num` whose members occur in the given collection: each
eligible id occurs exactly once, which is the set semantics the loop iterates
over (the iteration order of a Python set is unspecified, and the spec
guarantees no cross-worker ordering, so one canonical order loses nothing).
`send` is observed through the list of `(data, worker_id)` send events the
loop performs. -/

/-- The set of worker ids `broadcast` iterates over, as a duplicate-free list:
`range worker_num` when `worker_ids is None`, otherwise
`set(worker_ids) ∩ set(range(worker_num))`. -/
def broadcastTargets (workerNum : Nat) (workerIds : Option (List Nat)) : List Nat :=
  let allWorkerIds := List.range workerNum
  match workerIds with
  | none => allWorkerIds
  | some ids => allWorkerIds.filter (fun i => ids.contains i)

/-- The send events `broadcast data worker_ids` performs: one
`send(data, worker_id)` per target id. -/
def broadcastSends {D : Type} (data : D) (workerNum : Nat)
    (workerIds : Option (List Nat)) : List (D × Nat) :=
  (broadcastTargets workerNum workerIds).map (fun i => (data, i))

theorem broadcastTargets_nodup (workerNum : Nat) (workerIds : Option (List Nat)) :
    (broadcastTargets workerNum workerIds).Nodup := by
  cases workerIds with
  | none => exact List.nodup_range workerNum
  | some ids => exact List.Nodup.filter _ (List.nodup_range workerNum)

theorem mem_broadcastTargets_none (workerNum : Nat) (w : Nat) :
    w ∈ broadcastTargets workerNum none ↔ w < workerNum := by
  simp [broadcastTargets]

theorem mem_broadcastTargets_some (workerNum : Nat) (ids : List Nat) (w : Nat) :
    w ∈ broadcastTargets workerNum (some ids) ↔ w < workerNum ∧ w ∈ ids := by
  simp [broadcastTargets, List.mem_filter, and_comm]

theorem count_map_pair {D : Type} [DecidableEq D] (data : D) (l : List Nat) (w : Nat) :
    (l.map (fun i => (data, i))).count (data, w) = l.count w := by
  induction l with
  | nil => rfl
  | cons a t ih => simp [List.count_cons, ih]

theorem count_eq_ite_of_nodup (l : List Nat) (hn : l.Nodup) (w : Nat) :
    l.count w = if w ∈ l then 1 else 0 := by
  induction l with
  | nil => simp
  | cons a t ih =>
    rcases List.nodup_cons.mp hn with ⟨ha, ht⟩
    by_cases hw : w = a
    · subst hw
      simp [List.count_cons, List.count_eq_zero.mpr ha]
    · simp [List.count_cons, ih ht, Ne.symm hw, hw]

theorem count_broadcastSends {D : Type} [DecidableEq D] (data : D) (workerNum : Nat)
    (workerIds : Option (List Nat)) (w : Nat) :
    (broadcastSends data workerNum workerIds).count (data, w) =
      if w ∈ broadcastTargets workerNum workerIds then 1 else 0 := by
  unfold broadcastSends
  rw [count_map_pair]
  exact count_eq_ite_of_nodup _ (broadcastTargets_nodup workerNum workerIds) w

/-- C9: `ServerEndpoint.broadcast` with `worker_ids=None` performs exactly one
send of the data to every worker id in `{0..worker_num-1}` and to no other id;
with an explicit `worker_ids` collection every send goes to a named id in
range, each at most once (repeated single sends). -/
theorem C9_broadcast_fanout {D : Type} [DecidableEq D] (data : D) (workerNum : Nat)
    (ids : List Nat) (w : Nat) :
    ((broadcastSends data workerNum none).count (data, w)
        = if w < workerNum then 1 else 0) ∧
    (∀ d x, (d, x) ∈ broadcastSends data workerNum (some ids)
        → d = data ∧ x ∈ ids ∧ x < workerNum) ∧
    ((broadcastSends data workerNum (some ids)).count (data, w) ≤ 1) := by
  refine ⟨?_, ?_, ?_⟩
  · rw [count_broadcastSends]
    simp [mem_broadcastTargets_none]
  · intro d x hmem
    rcases List.mem_map.mp hmem with ⟨y, hy, hye⟩
    rcases (mem_broadcastTargets_some workerNum ids y).mp hy with ⟨hlt, hin⟩
    have hd : d = data := (congrArg Prod.fst hye).symm
    have hx : y = x := congrArg Prod.snd hye
    exact ⟨hd, hx ▸ hin, hx ▸ hlt⟩
  · rw [count_broadcastSends]
    split <;> omega

/-- C9 witness: concrete instantiation of `C9_broadcast_fanout`. -/
theorem C9_broadcast_fanout_witness :
    (broadcastSends (42 : Int) 3 none).count (42, 1) = 1 ∧
    (broadcastSends (42 : Int) 3 (some [2, 2, 7])).count (42, 2) ≤ 1 := by
  constructor
  · have h := (C9_broadcast_fanout (42 : Int) 3 [2, 2, 7] 1).1
    simpa using h
  · exact (C9_broadcast_fanout (42 : Int) 3 [2, 2, 7] 2).2.2

/-- C10: `ServerEndpoint.broadcast` with an explicit `worker_ids` collection
silently drops ids outside `{0..worker_num-1}` (no send for them, no error —
`broadcastSends` is total) and performs at most one send per worker even when
the collection contains duplicates. -/
theorem C10_broadcast_sanitizes_ids {D : Type} [DecidableEq D] (data : D)
    (workerNum : Nat) (ids : List Nat) (w : Nat) :
    (workerNum ≤ w → (broadcastSends data workerNum (some ids)).count (data, w) = 0) ∧
    (broadcastSends data workerNum (some ids)).count (data, w) ≤ 1 := by
  constructor
  · intro hw
    rw [count_broadcastSends]
    have : w ∉ broadcastTargets workerNum (some ids) := by
      rw [mem_broadcastTargets_some]
      rintro ⟨hlt, -⟩
      omega
    simp [this]
  · rw [count_broadcastSends]
    split <;> omega

/-- C10 witness: out-of-range id 7 receives nothing and duplicated id 2 is
sent to at most once, via `C10_broadcast_sanitizes_ids`. -/
theorem C10_broadcast_sanitizes_ids_witness :
    (broadcastSends (42 : Int) 3 (some [2, 2, 7])).count (42, 7) = 0 ∧
    (broadcastSends (42 : Int) 3 (some [2, 2, 7])).count (42, 2) ≤ 1 := by
  constructor
  · exact (C10_broadcast_sanitizes_ids (42 : Int) 3 [2, 2, 7] 7).1 (by decide)
  · exact (C10_broadcast_sanitizes_ids (42 : Int) 3 [2, 2, 7] 2).2

/-! ## Parameter dictionaries and the worker's outgoing round message

`ParameterDict` is an ordered mapping from layer/parameter name to a numeric
tensor; tensors are embedded as `List Int` (their numeric content is opaque
to the coordination logic).  The outgoing message of `FedAVGWorker` /
`FedDropoutAvgWorker` is a Python dict with keys `parameter` or
`parameter_diff` plus `dataset_size`, embedded as a structure of `Option`
fields. -/

/-- A model parameter dictionary: layer/parameter name ↦ flat tensor. -/
abbrev PDict := List (String × List Int)

/-- Elementwise combination of two parameter dictionaries with the same key
set and shapes (the spec's `ParameterDict` invariant: the key set is stable
across rounds), matching entries positionally. -/
def pdictZipWith (f : Int → Int → Int) (a b : PDict) : PDict :=
  (a.zip b).map (fun kv => (kv.1.1, kv.1.2.zipWith f kv.2.2))

/-- Modelled from the spec: `ModelCache.get_parameter_diff`
(`util/model_cache.py`, not under `src/`).  Per the glossary, a parameter
diff is the "elementwise difference between a worker's updated local
parameters and the last global parameters it received". -/
def get_parameter_diff (cached trained : PDict) : PDict :=
  pdictZipWith (fun c t => t - c) cached trained

/-- The worker→server round message (`sent_data` in the source): a dict with
at most one of `parameter` / `parameter_diff`, plus `dataset_size` once
`FedAVGWorker._get_sent_data` has added it. -/
structure SentData where
  parameter : Option PDict
  parameter_diff : Option PDict
  dataset_size : Option Nat
deriving DecidableEq

/-- Modelled from the spec: the base `AggregationWorker._get_sent_data`
(not under `src/`) supplies the newly trained parameter set under the key
`parameter` (§4.2 Sending builds the message from the trained parameters;
`FedAVGWorker._aggretation` pops exactly this key). -/
def aggregationWorker_get_sent_data (trained : PDict) : SentData :=
  { parameter := some trained, parameter_diff := none, dataset_size := none }

/-- `FedAVGWorker._get_sent_data`: the base message augmented with
`dataset_size`. -/
def fedAVGWorker_get_sent_data (trained : PDict) (datasetSize : Nat) : SentData :=
  let sent_data := aggregationWorker_get_sent_data trained
  { sent_data with dataset_size := some datasetSize }

/-- The message-construction step of `FedAVGWorker._aggretation`: when
`_send_parameter_diff` is set, pop `parameter` and store the diff against the
cached global parameters under `parameter_diff`; `none` models the `KeyError`
`sent_data.pop("parameter")` would raise if the key were absent. -/
def fedAVGWorker_aggretation_message (sendParameterDiff : Bool) (cached : PDict)
    (sent_data : SentData) : Option SentData :=
  if sendParameterDiff then
    match sent_data.parameter with
    | some parameter_data =>
        some { sent_data with
                 parameter := none,
                 parameter_diff := some (get_parameter_diff cached parameter_data) }
    | none => none
  else some sent_data

/-- The Bernoulli keep mask drawn by
`torch.bernoulli(torch.full_like(v, 1 - dropout_rate))`, abstracted as an
oracle `m : Nat → Nat → Bool` (`m i j = true` iff element `j` of layer `i`
drew 1, i.e. is kept); `v * weight` multiplies each element by the drawn
0/1 weight. -/
def applyDropoutMask (m : Nat → Nat → Bool) (p : PDict) : PDict :=
  p.mapIdx (fun i kv => (kv.1, kv.2.mapIdx (fun j x => x * (if m i j then 1 else 0))))

/-- `FedDropoutAvgWorker._get_sent_data`: clears `_send_parameter_diff`
(see `fedDropoutAvgWorker_outgoing`) and multiplies every element of the
`parameter` entry by its Bernoulli weight; `none` models the `KeyError` if
`sent_data["parameter"]` were absent. -/
def fedDropoutAvgWorker_get_sent_data (m : Nat → Nat → Bool) (trained : PDict)
    (datasetSize : Nat) : Option SentData :=
  let sent_data := fedAVGWorker_get_sent_data trained datasetSize
  match sent_data.parameter with
  | some parameter => some { sent_data with parameter := some (applyDropoutMask m parameter) }
  | none => none

/-- The dropout worker's complete outgoing round message:
`FedDropoutAvgWorker._get_sent_data` (which sets
`self._send_parameter_diff = False`) followed by the message construction of
`FedAVGWorker._aggretation`, which therefore performs no diffing. -/
def fedDropoutAvgWorker_outgoing (m : Nat → Nat → Bool) (cached trained : PDict)
    (datasetSize : Nat) : Option SentData :=
  (fedDropoutAvgWorker_get_sent_data m trained datasetSize).bind
    (fedAVGWorker_aggretation_message false cached)

/-- The payload claim C1 describes, stated from the claim's words for
comparison with the source-derived `fedDropoutAvgWorker_outgoing`: the
elementwise difference between the previously cached global parameters and
the newly trained parameters, masked elementwise before transmission. -/
def claimedDropoutDiffPayload (m : Nat → Nat → Bool) (cached trained : PDict) : PDict :=
  applyDropoutMask m (pdictZipWith (fun c t => c - t) cached trained)

/-- C1 counterexample: with cached global parameters `[1]`, newly trained
parameters `[3]`, and a mask keeping every element, the outgoing message of
the dropout worker carries the full trained value `3` under `parameter` and
no `parameter_diff` at all — not the masked diff (`-2` as the claim words
it, nor `2` with the opposite orientation). -/
theorem C1_counterexample_full_parameters_sent :
    (fedDropoutAvgWorker_outgoing (fun _ _ => true) [("w", [1])] [("w", [3])] 5).map
        (fun sd => (sd.parameter, sd.parameter_diff))
      = some (some [("w", [3])], none) ∧
    claimedDropoutDiffPayload (fun _ _ => true) [("w", [1])] [("w", [3])] = [("w", [-2])] ∧
    applyDropoutMask (fun _ _ => true) (get_parameter_diff [("w", [1])] [("w", [3])])
      = [("w", [2])] ∧
    some [("w", [(3 : Int)])] ≠ some [("w", [(-2 : Int)])] ∧
    some [("w", [(3 : Int)])] ≠ some [("w", [(2 : Int)])] := by
  refine ⟨by rfl, by rfl, by rfl, by decide, by decide⟩

/-- C1 (amended): the dropout worker's outgoing round message disables the
diff mechanism and carries the full newly trained parameters, each element
multiplied by its independent Bernoulli keep weight (so it is zeroed exactly
where the configured-probability mask dropped it); no `parameter_diff` field
is sent, and `dataset_size` is included. -/
theorem C1_amended_masked_full_parameters (m : Nat → Nat → Bool)
    (cached trained : PDict) (datasetSize : Nat) :
    fedDropoutAvgWorker_outgoing m cached trained datasetSize
      = some { parameter := some (applyDropoutMask m trained),
               parameter_diff := none,
               dataset_size := some datasetSize } := rfl

/-! ## Worker round state machine (src/worker/fed_avg_worker.py)

```python
def get_result_from_server(self):
    while True:
        result = super().get_result_from_server()
        if result is None:
            get_logger().warning("skip round %s", self._round_num)
            self._round_num += 1
            self.send_data_to_server(None)
            if self._stopped():
                break
            continue
        self.load_result_from_server(result=result)
        return

def load_result_from_server(self, result):
    if "end_training" in result:
        self.__stopped = True
        raise StopExecutingException()
    self._load_parameters(result["parameter"])
    self.cache_parameter_dict(...)
```

The stream of values `super().get_result_from_server()` yields is an
explicit input `List (Option ServerResult)` (`none` = skip signal).  The
base-class part of `_stopped()` (from the `Client` mixin, not under `src/`)
is an `externalStopped` flag, constant over the run and `false` in normal
operation. -/

/-- A server→worker round result: either the termination dict (containing
`end_training`) or a parameter payload. -/
inductive ServerResult where
  | endTraining
  | param (p : PDict)
deriving DecidableEq

/-- Observable worker state: the local round counter `_round_num`, the
`FedAVGWorker.__stopped` flag, the base-class stop flag, the parameters
applied via `_load_parameters` (in order), and the messages passed to
`send_data_to_server` during waits (`none` is the empty skip update). -/
structure WorkerState where
  roundNum : Nat
  stoppedFlag : Bool
  externalStopped : Bool
  applied : List PDict
  sentToServer : List (Option SentData)
deriving DecidableEq

/-- `FedAVGWorker._stopped`: the base-class flag or `__stopped`. -/
def workerIsStopped (s : WorkerState) : Bool :=
  s.externalStopped || s.stoppedFlag

/-- `FedAVGWorker.load_result_from_server`: a result containing
`end_training` sets `__stopped` and raises `StopExecutingException` (the
`Bool` records whether the exception was raised); otherwise the parameter
payload is loaded and cached. -/
def loadResultFromServer (s : WorkerState) : ServerResult → WorkerState × Bool
  | .endTraining => ({ s with stoppedFlag := true }, true)
  | .param p => ({ s with applied := s.applied ++ [p] }, false)

/-- How a call of `get_result_from_server` ended. -/
inductive GetOutcome where
  /-- `load_result_from_server` applied a parameter result and the call
  returned normally. -/
  | returned
  /-- `StopExecutingException` propagated out of the call (termination). -/
  | stopRaised
  /-- the skip branch saw `_stopped()` and broke out of the loop. -/
  | brokeOut
  /-- the modelled stream is exhausted: the real worker would keep
  blocking on the channel. -/
  | blocked
deriving DecidableEq

/-- The state change of one skip iteration: `self._round_num += 1` followed
by `self.send_data_to_server(None)`. -/
def skipStep (s : WorkerState) : WorkerState :=
  { s with roundNum := s.roundNum + 1, sentToServer := s.sentToServer ++ [none] }

/-- `FedAVGWorker.get_result_from_server` on an explicit stream of incoming
values: skip signals (`none`) increment `_round_num`, send an empty update
and retry (unless `_stopped()`); a real result goes to
`load_result_from_server`.  Returns the outcome, the final state, and the
unconsumed remainder of the stream. -/
def getResultFromServer (s : WorkerState) :
    List (Option ServerResult) → GetOutcome × WorkerState × List (Option ServerResult)
  | [] => (.blocked, s, [])
  | none :: rest =>
      let s' : WorkerState := skipStep s
      if workerIsStopped s' then (.brokeOut, s', rest)
      else getResultFromServer s' rest
  | some r :: rest =>
      match loadResultFromServer s r with
      | (s', true) => (.stopRaised, s', rest)
      | (s', false) => (.returned, s', rest)

/-- The worker's remaining aggregation rounds, viewed from the receive side:
after each normally-returned result the loop trains and waits again; a
raised `StopExecutingException` (or a break, or a blocked wait) ends the
run.  `fuel` bounds the number of remaining rounds. -/
def workerRounds : Nat → WorkerState → List (Option ServerResult) → GetOutcome × WorkerState
  | 0, s, _ => (.blocked, s)
  | fuel + 1, s, stream =>
      match getResultFromServer s stream with
      | (.returned, s', rest) => workerRounds fuel s' rest
      | (o, s', _) => (o, s')

theorem getResultFromServer_skip (s : WorkerState) (rest : List (Option ServerResult))
    (h : workerIsStopped (skipStep s) = false) :
    getResultFromServer s (none :: rest) = getResultFromServer (skipStep s) rest := by
  simp [getResultFromServer, h]

theorem skipStep_roundNum (s : WorkerState) : (skipStep s).roundNum = s.roundNum + 1 := rfl

theorem skipStep_flags (s : WorkerState) :
    (skipStep s).stoppedFlag = s.stoppedFlag
      ∧ (skipStep s).externalStopped = s.externalStopped := ⟨rfl, rfl⟩

theorem getResultFromServer_replicate_skip (k : Nat) (s : WorkerState) (p : PDict)
    (rest : List (Option ServerResult))
    (hs : s.stoppedFlag = false) (he : s.externalStopped = false) :
    getResultFromServer s (List.replicate k none ++ some (.param p) :: rest)
      = (.returned,
         { s with roundNum := s.roundNum + k,
                  sentToServer := s.sentToServer ++ List.replicate k none,
                  applied := s.applied ++ [p] },
         rest) := by
  induction k generalizing s with
  | zero =>
    simp [getResultFromServer, loadResultFromServer]
  | succ k ih =>
    rw [List.replicate_succ, List.cons_append,
      getResultFromServer_skip _ _ (by simp [workerIsStopped, skipStep, hs, he])]
    rw [ih _ (by simp [skipStep, hs]) (by simp [skipStep, he])]
    have h1 : s.roundNum + 1 + k = s.roundNum + (k + 1) := by omega
    simp only [skipStep, h1, List.replicate_succ, List.append_assoc, List.singleton_append]

/-- C6: a skip signal in `AwaitingAggregate` increments `_round_num` by one,
sends the empty update `None` to the server, leaves the stopped flag clear,
and retries the wait; consequently a worker that receives `k` skip signals
and then a real parameter result returns with `_round_num` raised by exactly
`k`, the `k` empty updates sent, the stopped flag still clear, and the
result applied — so a counter starting at round 1 reads `k + 1` at the
moment the first real result is applied. -/
theorem C6_skip_signal_accounting (s : WorkerState) (k : Nat) (p : PDict)
    (rest : List (Option ServerResult))
    (hs : s.stoppedFlag = false) (he : s.externalStopped = false) :
    getResultFromServer s (List.replicate k none ++ some (.param p) :: rest)
      = (.returned,
         { s with roundNum := s.roundNum + k,
                  sentToServer := s.sentToServer ++ List.replicate k none,
                  applied := s.applied ++ [p] },
         rest) ∧
    (s.roundNum = 1 →
      (getResultFromServer s (List.replicate k none ++ some (.param p) :: rest)).2.1.roundNum
        = k + 1) := by
  have h := getResultFromServer_replicate_skip k s p rest hs he
  refine ⟨h, fun h1 => ?_⟩
  rw [h]
  simp [h1, Nat.add_comm]

/-- C6 witness: a worker at round 1 that sees three skip signals and then a
real result ends at round 4 with the result applied, via
`C6_skip_signal_accounting`. -/
theorem C6_skip_signal_accounting_witness :
    getResultFromServer ⟨1, false, false, [], []⟩
        (List.replicate 3 none ++ some (.param [("w", [2])]) :: [])
      = (.returned, ⟨4, false, false, [[("w", [2])]], [none, none, none]⟩, []) ∧
    (getResultFromServer ⟨1, false, false, [], []⟩
        (List.replicate 3 none ++ some (.param [("w", [2])]) :: [])).2.1.roundNum = 4 := by
  have h := C6_skip_signal_accounting ⟨1, false, false, [], []⟩ 3 [("w", [2])] [] rfl rfl
  exact ⟨by simpa using h.1, by simpa using h.2 rfl⟩

theorem getResultFromServer_endTraining (s : WorkerState)
    (rest : List (Option ServerResult)) :
    getResultFromServer s (some .endTraining :: rest)
      = (.stopRaised, { s with stoppedFlag := true }, rest) := rfl

theorem getResultFromServer_stoppedFlag_iff (s : WorkerState)
    (stream : List (Option ServerResult)) (hs : s.stoppedFlag = false) :
    ((getResultFromServer s stream).2.1.stoppedFlag = true
      ↔ (getResultFromServer s stream).1 = .stopRaised) := by
  induction stream generalizing s with
  | nil => simp [getResultFromServer, hs]
  | cons msg rest ih =>
    cases msg with
    | none =>
      by_cases hstop : workerIsStopped (skipStep s) = true
      · have hflag : (skipStep s).stoppedFlag = false := by simp [skipStep, hs]
        simp [getResultFromServer, hstop, hflag]
      · simp only [getResultFromServer, hstop, Bool.false_eq_true, if_false]
        exact ih _ (by simp [skipStep, hs])
    | some r =>
      cases r with
      | endTraining => simp [getResultFromServer, loadResultFromServer]
      | param p => simp [getResultFromServer, loadResultFromServer, hs]

theorem getResultFromServer_applied_of_stop (s : WorkerState)
    (stream : List (Option ServerResult)) :
    (getResultFromServer s stream).1 = .stopRaised
      → (getResultFromServer s stream).2.1.applied = s.applied := by
  induction stream generalizing s with
  | nil => simp [getResultFromServer]
  | cons msg rest ih =>
    cases msg with
    | none =>
      by_cases hstop : workerIsStopped (skipStep s) = true
      · simp [getResultFromServer, hstop]
      · simp only [getResultFromServer, hstop, if_false]
        intro h
        have := ih (skipStep s) h
        simpa [skipStep] using this
    | some r =>
      cases r with
      | endTraining => simp [getResultFromServer, loadResultFromServer]
      | param p => simp [getResultFromServer, loadResultFromServer]

theorem workerRounds_halts_at_stop (fuel : Nat) (s : WorkerState)
    (stream : List (Option ServerResult)) :
    (getResultFromServer s stream).1 = .stopRaised
      → workerRounds (fuel + 1) s stream
          = (.stopRaised, (getResultFromServer s stream).2.1) := by
  intro h
  rcases hg : getResultFromServer s stream with ⟨o, s', rest⟩
  rw [hg] at h
  simp only at h
  subst h
  simp [workerRounds, hg]

theorem workerRounds_stoppedFlag_iff (fuel : Nat) (s : WorkerState)
    (stream : List (Option ServerResult)) (hs : s.stoppedFlag = false) :
    ((workerRounds fuel s stream).2.stoppedFlag = true
      ↔ (workerRounds fuel s stream).1 = .stopRaised) := by
  induction fuel generalizing s stream with
  | zero => simp [workerRounds, hs]
  | succ fuel ih =>
    rcases hg : getResultFromServer s stream with ⟨o, s', rest⟩
    have hiff := getResultFromServer_stoppedFlag_iff s stream hs
    rw [hg] at hiff
    simp only at hiff
    cases o with
    | returned =>
      have hs' : s'.stoppedFlag = false := by
        rcases hflag : s'.stoppedFlag with _ | _
        · rfl
        · exact absurd (hiff.mp hflag) (by simp)
      simpa [workerRounds, hg] using ih s' rest hs'
    | stopRaised => simp [workerRounds, hg, hiff.mpr rfl]
    | brokeOut =>
      simp only [workerRounds, hg]
      simpa using hiff
    | blocked =>
      simp only [workerRounds, hg]
      simpa using hiff

/-- C7: a result containing `end_training` makes the worker set its stopped
flag and unwind via `StopExecutingException`, aborting the remaining
receive/train loop at once (the final run state is the stop state, with no
parameter applied by the stopping wait); and this is the sole normal path to
Stopped — over any wait or any whole run that starts unstopped, the stopped
flag ends `true` exactly when the run ended with the termination exception,
so no parameter result is ever applied after entering Stopped. -/
theorem C7_end_training_sole_stop_path (s : WorkerState)
    (stream rest : List (Option ServerResult)) (fuel : Nat)
    (hs : s.stoppedFlag = false) :
    (getResultFromServer s (some .endTraining :: rest)
        = (.stopRaised, { s with stoppedFlag := true }, rest)) ∧
    ((getResultFromServer s stream).2.1.stoppedFlag = true
        ↔ (getResultFromServer s stream).1 = .stopRaised) ∧
    ((getResultFromServer s stream).1 = .stopRaised
        → (getResultFromServer s stream).2.1.applied = s.applied
          ∧ workerRounds (fuel + 1) s stream
              = (.stopRaised, (getResultFromServer s stream).2.1)) ∧
    ((workerRounds fuel s stream).2.stoppedFlag = true
        ↔ (workerRounds fuel s stream).1 = .stopRaised) := by
  refine ⟨getResultFromServer_endTraining s rest,
          getResultFromServer_stoppedFlag_iff s stream hs,
          fun h => ⟨getResultFromServer_applied_of_stop s stream h,
                    workerRounds_halts_at_stop fuel s stream h⟩,
          workerRounds_stoppedFlag_iff fuel s stream hs⟩

/-- C7 witness: a concrete run — one skip, then the termination message,
then a (never-consumed) parameter result — stops with the flag set, nothing
applied, and the trailing result unread, via
`C7_end_training_sole_stop_path`. -/
theorem C7_end_training_sole_stop_path_witness :
    getResultFromServer ⟨1, false, false, [], []⟩ [some .endTraining]
      = (.stopRaised, ⟨1, true, false, [], []⟩, []) ∧
    workerRounds 3 ⟨1, false, false, [], []⟩
        [none, some .endTraining, some (.param [("w", [9])])]
      = (.stopRaised, ⟨2, true, false, [], [none]⟩) := by
  have h := C7_end_training_sole_stop_path ⟨1, false, false, [], []⟩
    [none, some .endTraining, some (.param [("w", [9])])] [] 2 rfl
  constructor
  · simpa using h.1
  · have h2 := (h.2.2.1 (by decide)).2
    rw [h2]
    decide

/-! ## Shapley-value server (src/server/multiround_shapley_value_server.py)

```python
def _aggregate_worker_data(self, worker_data):
    ...
    self.sv_algorithm.compute()
    if self.choose_best_subset:
        best_subset = set(self.sv_algorithm.shapley_values_S[...round...].keys())
        if best_subset:
            worker_data = {k: v for k, v in worker_data.items() if k in best_subset}
    return super()._aggregate_worker_data(worker_data)

def _get_subset_metric(self, _, subset, worker_data):
    worker_data = {k: v for k, v in worker_data.items() if k in subset}
    assert worker_data
    return self.get_metric(super()._aggregate_worker_data(worker_data))[self.metric_type]
```

`worker_data` is an association list `worker_id ↦ update`; the base
aggregation `FedAVGServer._aggregate_worker_data` (not under `src/`) and the
held-out evaluation `get_metric`'s chosen entry are opaque parameters.  The
best subset is whatever `shapley_values_S[round].keys()` of the external
`MultiRoundShapleyValue` estimator holds, so it too is an explicit
argument. -/

/-- The dict comprehension `{k: v for k, v in worker_data.items() if k in
best_subset}` applied by the round's best-subset selection: the aggregation
input of `MultiRoundShapleyValueServer._aggregate_worker_data` after the
`choose_best_subset` branch. -/
def chooseBestSubsetInput {D : Type} (chooseBest : Bool) (bestSubset : List Nat)
    (workerData : List (Nat × D)) : List (Nat × D) :=
  if chooseBest then
    if bestSubset.isEmpty then workerData
    else workerData.filter (fun kv => bestSubset.contains kv.1)
  else workerData

/-- `MultiRoundShapleyValueServer._aggregate_worker_data`: the base
aggregation applied to the (possibly best-subset-restricted) worker data. -/
def svServerAggregateWorkerData {D A : Type} (baseAgg : List (Nat × D) → A)
    (chooseBest : Bool) (bestSubset : List Nat) (workerData : List (Nat × D)) : A :=
  baseAgg (chooseBestSubsetInput chooseBest bestSubset workerData)

/-- `MultiRoundShapleyValueServer._get_subset_metric`: restrict the round's
worker data to the queried subset, `assert worker_data`, and evaluate the
metric of the base aggregate of the restriction; `none` models the
`AssertionError`. -/
def getSubsetMetric {D A : Type} (baseAgg : List (Nat × D) → A) (metric : A → Int)
    (subset : List Nat) (workerData : List (Nat × D)) : Option Int :=
  let wd := workerData.filter (fun kv => subset.contains kv.1)
  if wd.isEmpty then none
  else some (metric (baseAgg wd))

/-- C3: with `choose_best_subset` enabled, an empty best subset leaves the
full received update set as the aggregation input, and a non-empty best
subset (whose ids all contributed data, as the round's Shapley estimate is
computed from this very `worker_data`) restricts the input to exactly those
worker ids; the round's final aggregate is the base aggregation of exactly
that input. -/
theorem C3_choose_best_subset_restriction {D A : Type} (baseAgg : List (Nat × D) → A)
    (bestSubset : List Nat) (workerData : List (Nat × D))
    (hsub : ∀ w ∈ bestSubset, w ∈ workerData.map Prod.fst) :
    (bestSubset = [] → chooseBestSubsetInput true bestSubset workerData = workerData) ∧
    (bestSubset ≠ [] →
      ∀ w, w ∈ (chooseBestSubsetInput true bestSubset workerData).map Prod.fst
        ↔ w ∈ bestSubset) ∧
    svServerAggregateWorkerData baseAgg true bestSubset workerData
      = baseAgg (chooseBestSubsetInput true bestSubset workerData) := by
  refine ⟨fun hempty => ?_, fun hne w => ?_, rfl⟩
  · simp [chooseBestSubsetInput, hempty]
  · have hnotempty : bestSubset.isEmpty = false := by
      cases bestSubset with
      | nil => exact absurd rfl hne
      | cons a t => rfl
    simp only [chooseBestSubsetInput, if_true, hnotempty, Bool.false_eq_true, if_false]
    constructor
    · intro hw
      rcases List.mem_map.mp hw with ⟨kv, hkv, hkve⟩
      rcases List.mem_filter.mp hkv with ⟨-, hmemb⟩
      exact hkve ▸ (by simpa using hmemb : kv.1 ∈ bestSubset)
    · intro hw
      rcases List.mem_map.mp (hsub w hw) with ⟨kv, hkv, hkve⟩
      refine List.mem_map.mpr ⟨kv, List.mem_filter.mpr ⟨hkv, ?_⟩, hkve⟩
      simpa using hkve ▸ hw

/-- C3 witness: with received updates from workers 0,1,2, the empty best
subset keeps all three and the best subset `{0, 2}` keeps exactly workers 0
and 2, via `C3_choose_best_subset_restriction`. -/
theorem C3_choose_best_subset_restriction_witness :
    chooseBestSubsetInput true ([] : List Nat) [(0, (10 : Int)), (1, 11), (2, 12)]
      = [(0, (10 : Int)), (1, 11), (2, 12)] ∧
    (1 ∈ (chooseBestSubsetInput true [0, 2] [(0, (10 : Int)), (1, 11), (2, 12)]).map
        Prod.fst ↔ 1 ∈ [0, 2]) ∧
    (2 ∈ (chooseBestSubsetInput true [0, 2] [(0, (10 : Int)), (1, 11), (2, 12)]).map
        Prod.fst ↔ 2 ∈ [0, 2]) := by
  refine ⟨?_, ?_, ?_⟩
  · exact (C3_choose_best_subset_restriction (fun l => l) []
      [(0, (10 : Int)), (1, 11), (2, 12)] (by decide)).1 rfl
  · exact (C3_choose_best_subset_restriction (fun l => l) [0, 2]
      [(0, (10 : Int)), (1, 11), (2, 12)] (by decide)).2.1 (by decide) 1
  · exact (C3_choose_best_subset_restriction (fun l => l) [0, 2]
      [(0, (10 : Int)), (1, 11), (2, 12)] (by decide)).2.1 (by decide) 2

/-- C4: whenever the queried subset has empty intersection with the round's
contributing worker data, `_get_subset_metric` fails loudly (the `assert`
fires, modelled as `none`) and returns no value; with a non-empty
intersection it returns the metric of the base aggregate of the
restriction — never a silently substituted value for the empty case. -/
theorem C4_subset_metric_asserts_nonempty {D A : Type} (baseAgg : List (Nat × D) → A)
    (metric : A → Int) (subset : List Nat) (workerData : List (Nat × D)) :
    ((workerData.filter (fun kv => subset.contains kv.1)).isEmpty = true
        → getSubsetMetric baseAgg metric subset workerData = none) ∧
    ((workerData.filter (fun kv => subset.contains kv.1)).isEmpty = false
        → getSubsetMetric baseAgg metric subset workerData
            = some (metric (baseAgg (workerData.filter (fun kv => subset.contains kv.1))))) := by
  constructor
  · intro h
    simp only [getSubsetMetric]
    rw [if_pos h]
  · intro h
    simp only [getSubsetMetric]
    rw [if_neg (by rw [h]; simp)]

/-- C4 witness: the subset `{5}` intersects no received update and the
evaluation yields no value; the subset `{0}` evaluates, via
`C4_subset_metric_asserts_nonempty`. -/
theorem C4_subset_metric_asserts_nonempty_witness :
    getSubsetMetric (fun l : List (Nat × Int) => l) (fun _ => 7) [5]
        [(0, (10 : Int)), (1, 11)] = none ∧
    getSubsetMetric (fun l : List (Nat × Int) => l) (fun _ => 7) [0]
        [(0, (10 : Int)), (1, 11)] = some 7 := by
  constructor
  · exact (C4_subset_metric_asserts_nonempty (fun l : List (Nat × Int) => l)
      (fun _ => 7) [5] [(0, (10 : Int)), (1, 11)]).1 (by decide)
  · have h := (C4_subset_metric_asserts_nonempty (fun l : List (Nat × Int) => l)
      (fun _ => 7) [0] [(0, (10 : Int)), (1, 11)]).2 (by decide)
    simpa using h

/-! ## Orchestration (src/training.py)

`tasks` is the global task registry (task id ↦ recorded
`practitioner_ids` / config), a Python dict embedded as an association
list with unique keys.  A per-unit result dict maps stat name to either the
Shapley table `"sv"` (round ↦ worker id ↦ value) or an opaque metric value;
`tmp_stats |= result` is dict merge (later units override on key
collision, key set is the union).  The process pool is observed through the
outcome of `wait` (a `Bool`) and the list of per-unit result dicts `stop`
returns. -/

/-- A value in a merged result dict: the Shapley table stored under the key
`"sv"` (round number ↦ worker-id-keyed table), or an opaque per-round
metric. -/
inductive StatVal where
  | sv (table : List (Nat × List (Nat × Int)))
  | metric (x : Int)
deriving DecidableEq

/-- Python `d[k] = v` on a dict with unique keys: overwrite in place when
the key exists, append otherwise. -/
def dictUpdate {V : Type} (d : List (String × V)) (k : String) (v : V) :
    List (String × V) :=
  if d.any (fun kv => kv.1 == k) then
    d.map (fun kv => if kv.1 == k then (k, v) else kv)
  else d ++ [(k, v)]

/-- Python `a |= b` on dicts: fold `b`'s entries into `a`. -/
def dictMerge {V : Type} (a b : List (String × V)) : List (String × V) :=
  b.foldl (fun acc kv => dictUpdate acc kv.1 kv.2) a

/-- `tmp_stats = {}; for result in results: tmp_stats |= result`. -/
def mergeResults {V : Type} (results : List (List (String × V))) :
    List (String × V) :=
  results.foldl dictMerge []

/-- `tmp_sv_dict[worker_id]` on an embedded int-keyed dict; total with
default `0` — the claims only exercise it where the key is present (a
missing worker id would raise `KeyError` in the source). -/
def lookupIntDict (d : List (Nat × Int)) (k : Nat) : Int :=
  (d.lookup k).getD 0

/-- The practitioner-id remap of `get_training_result`: for each round,
rebuild the table from `zip(sorted(practitioner_ids), range(worker_number))`,
mapping each practitioner id to the value of its positional worker id. -/
def remapShapleyTable (pids : List Nat) (workerNumber : Nat)
    (table : List (Nat × List (Nat × Int))) : List (Nat × List (Nat × Int)) :=
  table.map (fun rt =>
    (rt.1, ((pids.insertionSort (· ≤ ·)).zip (List.range workerNumber)).map
      (fun pw => (pw.1, lookupIntDict rt.2 pw.2))))

/-- The result post-processing of `get_training_result`: with no recorded
`practitioner_ids` the merged stats pass through; otherwise every entry
passes through unchanged except the `"sv"` entry, whose table is remapped.
(An `"sv"` entry that is not a Shapley table would make the source raise a
`TypeError` on `v.items()`; results produced by `start_executors` always
store a table there, so that case passes through.) -/
def postProcessStats (pids : Option (List Nat)) (workerNumber : Nat)
    (tmp : List (String × StatVal)) : List (String × StatVal) :=
  match pids with
  | none => tmp
  | some ps =>
    tmp.map (fun kv =>
      if kv.1 == "sv" then
        match kv.2 with
        | .sv table => (kv.1, StatVal.sv (remapShapleyTable ps workerNumber table))
        | .metric x => (kv.1, StatVal.metric x)
      else kv)

/-- The entry `train` records in the global `tasks` registry for a
non-blocking task. -/
structure TaskEntry where
  practitionerIds : Option (List Nat)
  workerNumber : Nat
deriving DecidableEq

/-- `get_training_result(task_id, timeout)`.  `waitOk` is the outcome of
`process_pool.wait(timeout)`, `results` what `process_pool.stop()` returns.
The outer `none` models the `KeyError` of `tasks[task_id]` for a task that
is not pending; `some (none, tasks)` is the timeout return (registry
untouched); on success the task is popped and the merged, post-processed
stats returned. -/
def getTrainingResult (tasks : List (Nat × TaskEntry)) (taskId : Nat)
    (waitOk : Bool) (results : List (List (String × StatVal))) :
    Option (Option (List (String × StatVal)) × List (Nat × TaskEntry)) :=
  match tasks.lookup taskId with
  | none => none
  | some task =>
    if waitOk then
      let tasksAfter := tasks.eraseP (fun kv => kv.1 == taskId)
      let stats := postProcessStats task.practitionerIds task.workerNumber
        (mergeResults results)
      some (some stats, tasksAfter)
    else some (none, tasks)

/-- The observable outcome of one `train` call: whether the
file-descriptor-limit `RuntimeError` was raised, whether the topology was
built (`get_worker_config`) and the process pool constructed, the returned
task id, and the registry afterwards. -/
structure TrainOutcome where
  raised : Bool
  topologyCreated : Bool
  poolCreated : Bool
  taskId : Option Nat
  tasksAfter : List (Nat × TaskEntry)
deriving DecidableEq

/-- The part of `train` after the resource-limit guard: build the worker
config and topology, create the process pool, schedule the units; blocking
mode stops the pool and returns `None`, non-blocking mode registers the
task under a fresh uuid and returns it. -/
def trainBody (tasks : List (Nat × TaskEntry)) (nonBlocking : Bool)
    (practitionerIds : Option (List Nat)) (workerNumber : Nat)
    (freshId : Nat) : TrainOutcome :=
  if nonBlocking then
    { raised := false, topologyCreated := true, poolCreated := true,
      taskId := some freshId,
      tasksAfter := tasks ++ [(freshId, ⟨practitionerIds, workerNumber⟩)] }
  else
    { raised := false, topologyCreated := true, poolCreated := true,
      taskId := none, tasksAfter := tasks }

/-- `train(config, non_blocking, practitioner_ids)`.  `sysconfOpenMax` is
`os.sysconf("SC_OPEN_MAX")` when the platform has `os.sysconf` (`none`
otherwise), `freshId` stands for `uuid.uuid4().int`.  The guard
`if isinstance(value, int) and value <= 1024: raise RuntimeError(...)` runs
before anything else touches topology, pool or registry. -/
def train (tasks : List (Nat × TaskEntry)) (sysconfOpenMax : Option Int)
    (nonBlocking : Bool) (practitionerIds : Option (List Nat))
    (workerNumber : Nat) (freshId : Nat) : TrainOutcome :=
  match sysconfOpenMax with
  | some value =>
    if value ≤ 1024 then
      { raised := true, topologyCreated := false, poolCreated := false,
        taskId := none, tasksAfter := tasks }
    else trainBody tasks nonBlocking practitionerIds workerNumber freshId
  | none => trainBody tasks nonBlocking practitionerIds workerNumber freshId

theorem mem_keys_dictUpdate {V : Type} (d : List (String × V)) (k k' : String) (v : V) :
    k' ∈ (dictUpdate d k v).map Prod.fst ↔ k' ∈ d.map Prod.fst ∨ k' = k := by
  unfold dictUpdate
  by_cases hany : d.any (fun kv => kv.1 == k) = true
  · rw [if_pos hany, List.map_map]
    have hfst : (Prod.fst ∘ fun kv : String × V => if kv.1 == k then (k, v) else kv)
        = fun kv : String × V => if kv.1 == k then k else kv.1 := by
      funext kv
      simp only [Function.comp]
      by_cases hk : kv.1 == k
      · rw [if_pos hk, if_pos hk]
      · rw [if_neg hk, if_neg hk]
    rw [hfst]
    constructor
    · intro h
      rcases List.mem_map.mp h with ⟨kv, hkv, hkve⟩
      by_cases hk : kv.1 == k
      · rw [if_pos hk] at hkve
        exact Or.inr hkve.symm
      · rw [if_neg hk] at hkve
        exact Or.inl (List.mem_map.mpr ⟨kv, hkv, hkve⟩)
    · rintro (h | rfl)
      · rcases List.mem_map.mp h with ⟨kv, hkv, hkve⟩
        refine List.mem_map.mpr ⟨kv, hkv, ?_⟩
        by_cases hk : kv.1 == k
        · rw [if_pos hk]
          have hkk : kv.1 = k := by simpa using hk
          rw [← hkk]
          exact hkve
        · rw [if_neg hk]
          exact hkve
      · rcases List.any_eq_true.mp hany with ⟨kv, hkv, hk⟩
        refine List.mem_map.mpr ⟨kv, hkv, ?_⟩
        rw [if_pos hk]
  · rw [if_neg hany]
    simp [or_comm]

theorem mem_keys_dictMerge {V : Type} (a b : List (String × V)) (k : String) :
    k ∈ (dictMerge a b).map Prod.fst
      ↔ k ∈ a.map Prod.fst ∨ k ∈ b.map Prod.fst := by
  induction b generalizing a with
  | nil => simp [dictMerge]
  | cons kv t ih =>
    have hstep : dictMerge a (kv :: t) = dictMerge (dictUpdate a kv.1 kv.2) t := rfl
    rw [hstep, ih, mem_keys_dictUpdate]
    simp only [List.map_cons, List.mem_cons]
    tauto

theorem mem_keys_foldl_dictMerge {V : Type} (acc : List (String × V))
    (results : List (List (String × V))) (k : String) :
    k ∈ (results.foldl dictMerge acc).map Prod.fst
      ↔ k ∈ acc.map Prod.fst ∨ ∃ r ∈ results, k ∈ r.map Prod.fst := by
  induction results generalizing acc with
  | nil => simp
  | cons r t ih =>
    rw [List.foldl_cons, ih, mem_keys_dictMerge]
    simp only [List.mem_cons]
    constructor
    · rintro ((h | h) | ⟨r', hr', h⟩)
      · exact Or.inl h
      · exact Or.inr ⟨r, Or.inl rfl, h⟩
      · exact Or.inr ⟨r', Or.inr hr', h⟩
    · rintro (h | ⟨r', (rfl | hr'), h⟩)
      · exact Or.inl (Or.inl h)
      · exact Or.inl (Or.inr h)
      · exact Or.inr ⟨r', hr', h⟩

theorem mem_keys_mergeResults {V : Type} (results : List (List (String × V)))
    (k : String) :
    k ∈ (mergeResults results).map Prod.fst
      ↔ ∃ r ∈ results, k ∈ r.map Prod.fst := by
  have h := mem_keys_foldl_dictMerge ([] : List (String × V)) results k
  simpa [mergeResults] using h

theorem keys_postProcessStats (pids : Option (List Nat)) (workerNumber : Nat)
    (tmp : List (String × StatVal)) :
    (postProcessStats pids workerNumber tmp).map Prod.fst = tmp.map Prod.fst := by
  cases pids with
  | none => rfl
  | some ps =>
    induction tmp with
    | nil => rfl
    | cons kv t ih =>
      simp only [postProcessStats, List.map_cons] at ih ⊢
      rw [ih]
      by_cases hk : kv.1 == "sv"
      · have hkk : kv.1 = "sv" := by simpa using hk
        cases kv.2 <;> simp [hk, hkk]
      · simp [hk]

theorem lookup_mem_keys {V : Type} (l : List (Nat × V)) (t : Nat) (e : V)
    (h : l.lookup t = some e) : t ∈ l.map Prod.fst := by
  induction l with
  | nil => simp [List.lookup] at h
  | cons kv rest ih =>
    obtain ⟨k1, v1⟩ := kv
    by_cases hp : t = k1
    · simp [hp]
    · have hk2 : (t == k1) = false := beq_eq_false_iff_ne.mpr hp
      simp only [List.lookup, hk2] at h
      simp only [List.map_cons, List.mem_cons]
      exact Or.inr (ih h)

theorem count_keys_eraseP (l : List (Nat × TaskEntry)) (t : Nat) (e : TaskEntry)
    (h : l.lookup t = some e) :
    ((l.eraseP (fun kv => kv.1 == t)).map Prod.fst).count t
      = ((l.map Prod.fst).count t) - 1 := by
  induction l with
  | nil => simp [List.lookup] at h
  | cons kv rest ih =>
    obtain ⟨k1, v1⟩ := kv
    by_cases hp : k1 = t
    · have hk : (k1 == t) = true := beq_iff_eq.mpr hp
      simp only [List.eraseP_cons, hk, cond_true]
      simp [List.count_cons, hp]
    · have hk : (k1 == t) = false := beq_eq_false_iff_ne.mpr hp
      have hk2 : (t == k1) = false := beq_eq_false_iff_ne.mpr (Ne.symm hp)
      have hlook : rest.lookup t = some e := by
        simp only [List.lookup, hk2] at h
        exact h
      simp only [List.eraseP_cons, hk, cond_false]
      simp only [List.map_cons, List.count_cons, hk]
      rw [ih hlook]
      have hmem : t ∈ rest.map Prod.fst := lookup_mem_keys rest t e hlook
      have hpos : 1 ≤ (rest.map Prod.fst).count t := List.one_le_count_iff.mpr hmem
      simp only [Bool.false_eq_true, if_false]
      omega

theorem not_mem_keys_eraseP (l : List (Nat × TaskEntry)) (t : Nat)
    (hnd : (l.map Prod.fst).Nodup) :
    t ∉ (l.eraseP (fun kv => kv.1 == t)).map Prod.fst := by
  induction l with
  | nil => simp
  | cons kv rest ih =>
    obtain ⟨k1, v1⟩ := kv
    have hnd' : (k1 :: rest.map Prod.fst).Nodup := by simpa using hnd
    rcases List.nodup_cons.mp hnd' with ⟨hhead, htail⟩
    by_cases hp : k1 = t
    · have hk : (k1 == t) = true := beq_iff_eq.mpr hp
      simp only [List.eraseP_cons, hk, cond_true]
      rw [hp] at hhead
      exact hhead
    · have hk : (k1 == t) = false := beq_eq_false_iff_ne.mpr hp
      simp only [List.eraseP_cons, hk, cond_false]
      simp only [List.map_cons, List.mem_cons]
      rintro (h | h)
      · exact hp h.symm
      · exact ih htail h

/-- C5: for a pending task, `get_training_result` returns the timeout marker
with the registry unchanged on timeout (the task stays pending and may be
polled again); on success it returns the merged stats — whose key set is the
union of the units' key sets — and removes the task from the registry
exactly once (its key count drops by exactly one and, registry keys being
unique, the id is gone). -/
theorem C5_get_training_result_lifecycle (tasks : List (Nat × TaskEntry))
    (taskId : Nat) (results : List (List (String × StatVal))) (entry : TaskEntry)
    (hpend : tasks.lookup taskId = some entry)
    (hnd : (tasks.map Prod.fst).Nodup) :
    (getTrainingResult tasks taskId false results = some (none, tasks)) ∧
    (getTrainingResult tasks taskId true results
        = some (some (postProcessStats entry.practitionerIds entry.workerNumber
                        (mergeResults results)),
                tasks.eraseP (fun kv => kv.1 == taskId))) ∧
    (∀ k, k ∈ (postProcessStats entry.practitionerIds entry.workerNumber
                  (mergeResults results)).map Prod.fst
        ↔ ∃ r ∈ results, k ∈ r.map Prod.fst) ∧
    ((tasks.eraseP (fun kv => kv.1 == taskId)).map Prod.fst).count taskId
        = ((tasks.map Prod.fst).count taskId) - 1 ∧
    taskId ∉ (tasks.eraseP (fun kv => kv.1 == taskId)).map Prod.fst := by
  refine ⟨?_, ?_, ?_, count_keys_eraseP tasks taskId entry hpend,
          not_mem_keys_eraseP tasks taskId hnd⟩
  · simp [getTrainingResult, hpend]
  · simp [getTrainingResult, hpend]
  · intro k
    rw [keys_postProcessStats, mem_keys_mergeResults]

/-- C5 witness: a registry with the single pending task 5, via
`C5_get_training_result_lifecycle`. -/
theorem C5_get_training_result_lifecycle_witness :
    getTrainingResult [(5, ⟨none, 2⟩)] 5 false [[("acc", StatVal.metric 1)]]
      = some (none, [(5, ⟨none, 2⟩)]) ∧
    ("acc" ∈ (postProcessStats none 2
          (mergeResults [[("acc", StatVal.metric 1)]])).map Prod.fst
      ↔ ∃ r ∈ [[("acc", StatVal.metric 1)]], "acc" ∈ r.map Prod.fst) ∧
    5 ∉ (([(5, (⟨none, 2⟩ : TaskEntry))].eraseP (fun kv => kv.1 == 5)).map Prod.fst) := by
  have h := C5_get_training_result_lifecycle [(5, ⟨none, 2⟩)] 5
    [[("acc", StatVal.metric 1)]] ⟨none, 2⟩ (by rfl) (by decide)
  exact ⟨h.1, h.2.2.1 "acc", h.2.2.2.2⟩

/-- C2: when `practitioner_ids` were supplied at train time, a successful
`get_training_result` returns the merged stats post-processed so that
exactly the `"sv"` entry's table is rebuilt by zipping the
ascending-sorted practitioner ids against worker ids `0..N-1` (every
non-`"sv"` entry passes through unchanged); in particular for practitioner
ids `{7, 3, 9}` and three workers, each round's table maps 3 to worker 0's
value, 7 to worker 1's and 9 to worker 2's. -/
theorem C2_shapley_practitioner_remap (tasks : List (Nat × TaskEntry))
    (taskId : Nat) (results : List (List (String × StatVal)))
    (pids : List Nat) (N : Nat)
    (hpend : tasks.lookup taskId = some ⟨some pids, N⟩) :
    (getTrainingResult tasks taskId true results
        = some (some (postProcessStats (some pids) N (mergeResults results)),
                tasks.eraseP (fun kv => kv.1 == taskId))) ∧
    (∀ tmp : List (String × StatVal), ∀ kv ∈ tmp, kv.1 ≠ "sv"
        → kv ∈ postProcessStats (some pids) N tmp) ∧
    (∀ tbl : List (Nat × List (Nat × Int)),
      postProcessStats (some pids) N [("sv", StatVal.sv tbl)]
        = [("sv", StatVal.sv (remapShapleyTable pids N tbl))]) ∧
    (∀ r : Nat, ∀ w0 w1 w2 : Int,
      remapShapleyTable [7, 3, 9] 3 [(r, [(0, w0), (1, w1), (2, w2)])]
        = [(r, [(3, w0), (7, w1), (9, w2)])]) := by
  refine ⟨?_, ?_, ?_, ?_⟩
  · simp [getTrainingResult, hpend]
  · intro tmp kv hkv hne
    refine List.mem_map.mpr ⟨kv, hkv, ?_⟩
    rw [if_neg (by simpa using beq_eq_false_iff_ne.mpr hne)]
  · intro tbl
    rfl
  · intro r w0 w1 w2
    rfl

/-- C2 witness: practitioner ids `{7, 3, 9}` with three workers — worker 0's
value 100 goes to practitioner 3, worker 1's value 200 to 7, worker 2's
value 300 to 9, and the `"acc"` entry passes through — via
`C2_shapley_practitioner_remap`. -/
theorem C2_shapley_practitioner_remap_witness :
    getTrainingResult [(5, ⟨some [7, 3, 9], 3⟩)] 5 true
        [[("sv", StatVal.sv [(1, [(0, 100), (1, 200), (2, 300)])]),
          ("acc", StatVal.metric 4)]]
      = some (some [("sv", StatVal.sv [(1, [(3, 100), (7, 200), (9, 300)])]),
                    ("acc", StatVal.metric 4)], []) ∧
    ("acc", StatVal.metric 4)
      ∈ postProcessStats (some [7, 3, 9]) 3
          [("sv", StatVal.sv [(1, [(0, 100), (1, 200), (2, 300)])]),
           ("acc", StatVal.metric 4)] ∧
    remapShapleyTable [7, 3, 9] 3 [(1, [(0, 100), (1, 200), (2, 300)])]
      = [(1, [(3, 100), (7, 200), (9, 300)])] := by
  have h := C2_shapley_practitioner_remap [(5, ⟨some [7, 3, 9], 3⟩)] 5
    [[("sv", StatVal.sv [(1, [(0, 100), (1, 200), (2, 300)])]),
      ("acc", StatVal.metric 4)]] [7, 3, 9] 3 (by rfl)
  refine ⟨?_, ?_, h.2.2.2 1 100 200 300⟩
  · rw [h.1]
    rfl
  · exact h.2.1 _ ("acc", StatVal.metric 4) (by simp) (by decide)

/-- C8: `train` refuses to start when `SC_OPEN_MAX` is at most 1024 — the
`RuntimeError` is raised before the topology is built, the process pool is
created, or any pending-task entry is registered, so a refused start leaves
no partial state; past the guard, non-blocking mode registers the task and
returns its fresh id immediately, while blocking mode runs to completion,
returns `None` and leaves no registry entry. -/
theorem C8_train_resource_guard (tasks : List (Nat × TaskEntry)) (value : Int)
    (nonBlocking : Bool) (pids : Option (List Nat)) (N : Nat) (freshId : Nat) :
    (value ≤ 1024 →
      train tasks (some value) nonBlocking pids N freshId
        = ⟨true, false, false, none, tasks⟩) ∧
    (1024 < value →
      train tasks (some value) true pids N freshId
        = ⟨false, true, true, some freshId, tasks ++ [(freshId, ⟨pids, N⟩)]⟩) ∧
    (1024 < value →
      train tasks (some value) false pids N freshId
        = ⟨false, true, true, none, tasks⟩) := by
  refine ⟨fun h => ?_, fun h => ?_, fun h => ?_⟩
  · simp only [train]
    rw [if_pos h]
  · simp only [train]
    rw [if_neg (not_le.mpr h)]
    rfl
  · simp only [train]
    rw [if_neg (not_le.mpr h)]
    rfl

/-- C8 witness: an open-file limit of 512 refuses to start with no state
created; a limit of 4096 starts, non-blocking returning the fresh task id
and blocking returning nothing — via `C8_train_resource_guard`. -/
theorem C8_train_resource_guard_witness :
    train [] (some 512) true none 3 77 = ⟨true, false, false, none, []⟩ ∧
    train [] (some 4096) true none 3 77
      = ⟨false, true, true, some 77, [(77, ⟨none, 3⟩)]⟩ ∧
    train [] (some 4096) false none 3 77 = ⟨false, true, true, none, []⟩ := by
  refine ⟨?_, ?_, ?_⟩
  · exact (C8_train_resource_guard [] 512 true none 3 77).1 (by decide)
  · have h := (C8_train_resource_guard [] 4096 true none 3 77).2.1 (by decide)
    simpa using h
  · exact (C8_train_resource_guard [] 4096 false none 3 77).2.2 (by decide)

end DLSim
